import Mathlib

/-!
Shallow embedding of `src/auth.rs` from openapi-fuzzer: a self-refreshing
credential provider.  Pure data (`ApiAuth`, `LifeSpan`, `AuthToken`, `Auth`)
is translated directly; the effectful parts (spawning the refresh
subprocess, reading the monotonic clock) are made explicit through an
`Env` record supplying the decoded stdout of the refresh command (or an
execution failure) and the current time in whole seconds.  Each stateful
method returns its result together with the updated provider state and the
number of refresh-command invocations performed during the call.
-/

namespace OpenapiFuzzer

/-- Rust `pub enum ApiAuth { Bearer }` from `auth.rs`. -/
inductive ApiAuth where
  | Bearer
deriving DecidableEq, Repr

/-- Rust `impl ToString for ApiAuth`: `Bearer` displays as `"Bearer"`. -/
def ApiAuth.toString : ApiAuth → String
  | .Bearer => "Bearer"

/-- Rust `impl FromStr for ApiAuth`: case-insensitive, only `"bearer"` accepted. -/
def ApiAuth.from_str (s : String) : Option ApiAuth :=
  if s.toLower = "bearer" then some .Bearer else none

/-- Rust `enum LifeSpan { Indefinite, SingleUse, Seconds(i64) }` from `auth.rs`. -/
inductive LifeSpan where
  | Indefinite
  | SingleUse
  | Seconds (s : Int)
deriving DecidableEq, Repr

/-- Rust `impl From<i64> for LifeSpan`: negative → `Indefinite`, zero →
`SingleUse`, positive → `Seconds(v)`. -/
def LifeSpan.fromInt (value : Int) : LifeSpan :=
  if value < 0 then .Indefinite
  else if value = 0 then .SingleUse
  else .Seconds value

/-- Rust `struct AuthToken { token, lifespan, last_refreshed }`; the
`Instant` field is modelled as an absolute time in whole seconds. -/
structure AuthToken where
  token : String
  lifespan : LifeSpan
  last_refreshed : Nat
deriving DecidableEq, Repr

/-- Rust `pub struct Auth { auth_type, token, refresh_cmd }`. -/
structure Auth where
  auth_type : ApiAuth
  token : Option AuthToken
  refresh_cmd : String
deriving DecidableEq, Repr

/-- Constructor `Auth::new`: starts with no cached token. -/
def Auth.new (refresh_cmd : String) (auth_type : ApiAuth) : Auth :=
  { auth_type := auth_type, token := none, refresh_cmd := refresh_cmd }

/-- The `Header(String, String)` tuple struct from the crate root. -/
structure Header where
  name : String
  value : String
deriving DecidableEq, Repr

/-- Errors a call can surface (all are `anyhow::Error` in the source;
we separate the four distinct failure points). -/
inductive AuthError where
  /-- Case where `cmd.output()?` failed: the subprocess could not be run. -/
  | execError
  /-- Case where `String::from_utf8(output.stdout)?` failed. -/
  | utf8Error
  /-- Error `anyhow!("Invalid token command output")`: field count ≠ 2. -/
  | invalidOutput
  /-- Case where `token_info[1].parse::<i64>()?` failed. -/
  | parseIntError
deriving DecidableEq, Repr

/-- The effectful environment of a single `access_token` call: the decoded
stdout text of the refresh command (`none` when spawning the process or
decoding its stdout fails) and the current time in whole seconds. -/
structure Env where
  refreshOutput : Option String
  now : Nat
deriving DecidableEq, Repr

/-- Whether the subprocess step itself failed; the source does not
distinguish which of the two error points fired once `refreshOutput` is
absent, so we report `execError` for the modelled failure. -/
def Env.output (env : Env) : Except AuthError String :=
  match env.refreshOutput with
  | none => .error .execError
  | some s => .ok s

deriving instance DecidableEq for Except

/-- Accumulator pass over the character list: `acc` holds the current word
reversed; whitespace closes the word (empty words are dropped). -/
def splitWsAux : List Char → List Char → List String
  | [], acc => if acc.isEmpty then [] else [String.mk acc.reverse]
  | c :: cs, acc =>
    if c.isWhitespace then
      (if acc.isEmpty then [] else [String.mk acc.reverse]) ++ splitWsAux cs []
    else
      splitWsAux cs (c :: acc)

/-- Rust's `str::split_whitespace`: the non-empty maximal runs of
non-whitespace characters. -/
def splitWhitespace (s : String) : List String :=
  splitWsAux s.data []

/-- Rust's `str::parse::<i64>`: optional single leading `+`/`-`, then one
or more ASCII digits, and the resulting value must fit in `i64`. -/
def parseI64 (s : String) : Option Int :=
  let (sign, digits) : Int × List Char :=
    match s.data with
    | '+' :: rest => (1, rest)
    | '-' :: rest => (-1, rest)
    | cs => (1, cs)
  if digits.isEmpty then none
  else if digits.all Char.isDigit then
    let mag : Nat := digits.foldl (fun acc c => acc * 10 + (c.toNat - '0'.toNat)) 0
    let v : Int := sign * mag
    if -(2 ^ 63) ≤ v ∧ v ≤ 2 ^ 63 - 1 then some v else none
  else none

/-- Rust's `s as u64` cast of an `i64` value: wraps modulo `2 ^ 64`. -/
def asU64 (s : Int) : Nat := (s % (2 ^ 64)).toNat

/-- Value of `Instant::elapsed().as_secs()` for a token issued at `last_refreshed`,
observed at time `now` (both in whole seconds, monotonic clock). -/
def elapsedSecs (last_refreshed now : Nat) : Nat := now - last_refreshed

/-- Method `Auth::refresh_token`: run the refresh command, split its stdout on
whitespace, require exactly two fields, parse the second as an `i64`, and
build a fresh token stamped with the current time. -/
def Auth.refresh_token (env : Env) : Except AuthError AuthToken :=
  match env.output with
  | .error e => .error e
  | .ok new_token_raw =>
    let token_info := splitWhitespace new_token_raw
    if token_info.length ≠ 2 then
      .error .invalidOutput
    else
      match parseI64 (token_info.getD 1 "") with
      | none => .error .parseIntError
      | some lifetime =>
        .ok { token := token_info.getD 0 ""
              lifespan := LifeSpan.fromInt lifetime
              last_refreshed := env.now }

/-- Method `Auth::get_token`: decide whether to reuse the cached token or refresh,
write the chosen token back to the cache on success, and return the
credential string.  Also returns the updated provider and the number of
refresh-command invocations (a failed `refresh_token` still counts as an
invocation, and the `?` early return leaves `self.token` untouched). -/
def Auth.get_token (self : Auth) (env : Env) :
    Except AuthError String × Auth × Nat :=
  let picked : Except AuthError AuthToken × Nat :=
    match self.token with
    | none => (Auth.refresh_token env, 1)
    | some t =>
      match t.lifespan with
      | .Indefinite => (.ok t, 0)
      | .SingleUse => (Auth.refresh_token env, 1)
      | .Seconds s =>
        if elapsedSecs t.last_refreshed env.now > asU64 s / 2 then
          (Auth.refresh_token env, 1)
        else
          (.ok t, 0)
  match picked with
  | (.error e, n) => (.error e, self, n)
  | (.ok token, n) =>
    (.ok token.token, { self with token := some token }, n)

/-- Method `Auth::access_token` (the spec's `access_header()`): no-op when
`refresh_cmd` is empty, otherwise obtain a credential via `get_token` and
wrap it in an `Authorization` header. -/
def Auth.access_token (self : Auth) (env : Env) :
    Except AuthError (Option Header) × Auth × Nat :=
  if ¬ self.refresh_cmd.isEmpty then
    match self.get_token env with
    | (.ok t, st, n) =>
      (.ok (some { name := "Authorization"
                   value := self.auth_type.toString ++ " " ++ t }), st, n)
    | (.error e, st, n) => (.error e, st, n)
  else
    (.ok none, self, 0)

/-- A sequence of `access_token` calls, threading the provider state and
summing the refresh-command invocation counts. -/
def Auth.runCalls (self : Auth) :
    List Env → List (Except AuthError (Option Header)) × Auth × Nat
  | [] => ([], self, 0)
  | env :: envs =>
    let (r, st, n) := self.access_token env
    let (rs, st2, m) := st.runCalls envs
    (r :: rs, st2, n + m)


/-! ## Helper lemmas -/

/-- Writing back the very token that is already cached leaves the provider
record unchanged. -/
theorem Auth.set_token_self (a : Auth) (t : AuthToken) (h : a.token = some t) :
    { a with token := some t } = a := by
  cases a
  simp_all

/-- For a non-negative value below `2 ^ 64`, the `as u64` cast is the
identity on the underlying natural number. -/
theorem asU64_eq_toNat (n : Int) (h0 : 0 ≤ n) (h1 : n < 2 ^ 64) :
    asU64 n = n.toNat := by
  unfold asU64
  rw [Int.emod_eq_of_lt h0 h1]

/-! ## Claims -/

/-- C5: for every provider whose `refresh_cmd` is the empty string, in any
state, `access_token` returns no header, performs no refresh invocation,
and leaves the provider unchanged. -/
theorem access_token_empty_cmd_noop (a : Auth) (env : Env)
    (hcmd : a.refresh_cmd.isEmpty) :
    a.access_token env = (.ok none, a, 0) := by
  simp [Auth.access_token, hcmd]

/-- Witness for C5 at a concrete provider that even holds a stale token. -/
theorem access_token_empty_cmd_noop_witness :
    ((⟨.Bearer, some ⟨"tok", .SingleUse, 0⟩, ""⟩ : Auth).access_token
        ⟨some "abc123 300", 7⟩) =
      (.ok none, (⟨.Bearer, some ⟨"tok", .SingleUse, 0⟩, ""⟩ : Auth), 0) :=
  access_token_empty_cmd_noop _ _ (by decide)

/-- C6: the lifespan classification is total on integers: it yields
`Indefinite` exactly on negatives, `SingleUse` exactly on zero, and
`Seconds v` exactly on positives, so every integer maps to exactly one
variant. -/
theorem lifeSpan_fromInt_classification (v : Int) :
    (LifeSpan.fromInt v = .Indefinite ↔ v < 0) ∧
    (LifeSpan.fromInt v = .SingleUse ↔ v = 0) ∧
    (∀ n : Int, LifeSpan.fromInt v = .Seconds n ↔ 0 < v ∧ n = v) := by
  unfold LifeSpan.fromInt
  refine ⟨?_, ?_, fun n => ?_⟩ <;> split_ifs with h1 h2 <;> simp_all <;> omega

/-- C4: with a cached `SingleUse` token and a non-empty refresh command,
every `access_token` call invokes the refresh mechanism exactly once,
whatever the current time or refresh outcome. -/
theorem access_token_single_use_refreshes_once (a : Auth) (env : Env)
    (t : AuthToken) (hcmd : ¬ a.refresh_cmd.isEmpty) (htok : a.token = some t)
    (hlife : t.lifespan = .SingleUse) :
    (a.access_token env).2.2 = 1 := by
  cases hres : Auth.refresh_token env <;>
    simp [Auth.access_token, Auth.get_token, htok, hlife, hcmd, hres]

/-- Witness for C4: a `SingleUse` token issued at time 0 and queried again
at time 0 still triggers a refresh. -/
theorem access_token_single_use_refreshes_once_witness :
    ((⟨.Bearer, some ⟨"tok", .SingleUse, 0⟩, "cmd"⟩ : Auth).access_token
        ⟨some "abc123 300", 0⟩).2.2 = 1 :=
  access_token_single_use_refreshes_once _ _ ⟨"tok", .SingleUse, 0⟩
    (by decide) rfl rfl

/-- C1: with no cached token and a non-empty refresh command,
`access_token` invokes the refresh mechanism exactly once, and when that
refresh succeeds the call returns the `Authorization` header whose value is
the scheme display string, a space, and the refreshed credential. -/
theorem access_token_no_cache (a : Auth) (env : Env)
    (hcmd : ¬ a.refresh_cmd.isEmpty) (htok : a.token = none) :
    (a.access_token env).2.2 = 1 ∧
    ∀ tok : AuthToken, Auth.refresh_token env = .ok tok →
      (a.access_token env).1 =
        .ok (some { name := "Authorization",
                    value := a.auth_type.toString ++ " " ++ tok.token }) := by
  constructor
  · cases hres : Auth.refresh_token env <;>
      simp [Auth.access_token, Auth.get_token, htok, hcmd, hres]
  · intro tok hok
    simp [Auth.access_token, Auth.get_token, htok, hcmd, hok]

/-- Witness for C1 on refresh output `"abc123 300"`. -/
theorem access_token_no_cache_witness :
    ((Auth.new "cmd" .Bearer).access_token ⟨some "abc123 300", 7⟩).2.2 = 1 ∧
    ((Auth.new "cmd" .Bearer).access_token ⟨some "abc123 300", 7⟩).1 =
      .ok (some { name := "Authorization",
                  value := (Auth.new "cmd" .Bearer).auth_type.toString ++ " " ++
                    "abc123" }) :=
  ⟨(access_token_no_cache _ _ (by decide) rfl).1,
   (access_token_no_cache _ _ (by decide) rfl).2
     ⟨"abc123", .Seconds 300, 7⟩ (by decide)⟩


/-- C2 (refresh branch and reuse branch of the half-life policy): for a
cached `Seconds n` token (`n` a positive `i64` value) and non-empty
refresh command, a call whose elapsed whole seconds exceed `n / 2`
(integer floor) invokes the refresh mechanism exactly once, while a call
within the half-life reuses the cached credential, invokes no refresh, and
leaves the provider unchanged. -/
theorem access_token_seconds_half_life (a : Auth) (env : Env)
    (t : AuthToken) (n : Int)
    (hcmd : ¬ a.refresh_cmd.isEmpty) (htok : a.token = some t)
    (hlife : t.lifespan = .Seconds n) (hn : 0 < n) (hrange : n < 2 ^ 63) :
    (elapsedSecs t.last_refreshed env.now > n.toNat / 2 →
        (a.access_token env).2.2 = 1) ∧
    (elapsedSecs t.last_refreshed env.now ≤ n.toNat / 2 →
        (a.access_token env).2.2 = 0 ∧
        (a.access_token env).1 =
          .ok (some { name := "Authorization",
                      value := a.auth_type.toString ++ " " ++ t.token }) ∧
        (a.access_token env).2.1 = a) := by
  have hcast : asU64 n = n.toNat := asU64_eq_toNat n (le_of_lt hn) (by omega)
  constructor
  · intro hgt
    cases hres : Auth.refresh_token env <;>
      simp [Auth.access_token, Auth.get_token, htok, hlife, hcmd, hcast,
        hgt, hres]
  · intro hle
    have hnot : ¬ elapsedSecs t.last_refreshed env.now > asU64 n / 2 := by
      rw [hcast]; omega
    simp [Auth.access_token, Auth.get_token, htok, hlife, hcmd, hnot,
      Auth.set_token_self a t htok]

/-- Witness for C2: a `Seconds 10` token issued at time 0 and queried at
time 4 (elapsed 4 ≤ 5) is reused with no refresh and unchanged state. -/
theorem access_token_seconds_half_life_witness :
    ((⟨.Bearer, some ⟨"tok", .Seconds 10, 0⟩, "cmd"⟩ : Auth).access_token
        ⟨some "tok2 10", 4⟩).2.2 = 0 ∧
    ((⟨.Bearer, some ⟨"tok", .Seconds 10, 0⟩, "cmd"⟩ : Auth).access_token
        ⟨some "tok2 10", 4⟩).1 =
      .ok (some { name := "Authorization",
                  value := (⟨.Bearer, some ⟨"tok", .Seconds 10, 0⟩, "cmd"⟩ :
                    Auth).auth_type.toString ++ " " ++ "tok" }) ∧
    ((⟨.Bearer, some ⟨"tok", .Seconds 10, 0⟩, "cmd"⟩ : Auth).access_token
        ⟨some "tok2 10", 4⟩).2.1 =
      (⟨.Bearer, some ⟨"tok", .Seconds 10, 0⟩, "cmd"⟩ : Auth) :=
  (access_token_seconds_half_life _ _ ⟨"tok", .Seconds 10, 0⟩ 10
    (by decide) rfl rfl (by decide) (by decide)).2 (by decide)

/-- One `access_token` call on a provider caching an `Indefinite` token:
the cached credential is returned, no refresh happens, and the provider is
unchanged. -/
theorem indefinite_access_step (a : Auth) (env : Env) (t : AuthToken)
    (hcmd : ¬ a.refresh_cmd.isEmpty) (htok : a.token = some t)
    (hlife : t.lifespan = .Indefinite) :
    a.access_token env =
      (.ok (some { name := "Authorization",
                   value := a.auth_type.toString ++ " " ++ t.token }), a, 0) := by
  simp [Auth.access_token, Auth.get_token, htok, hlife, hcmd,
    Auth.set_token_self a t htok]

/-- C3: with a cached `Indefinite` token and a non-empty refresh command,
any sequence of `access_token` calls performs zero refresh invocations,
returns the same credential header on every call, and leaves the provider
unchanged. -/
theorem runCalls_indefinite (a : Auth) (t : AuthToken) (envs : List Env)
    (hcmd : ¬ a.refresh_cmd.isEmpty) (htok : a.token = some t)
    (hlife : t.lifespan = .Indefinite) :
    a.runCalls envs =
      (envs.map (fun _ =>
        .ok (some { name := "Authorization",
                    value := a.auth_type.toString ++ " " ++ t.token })),
       a, 0) := by
  induction envs with
  | nil => simp [Auth.runCalls]
  | cons e es ih =>
    simp [Auth.runCalls, indefinite_access_step a e t hcmd htok hlife, ih]

/-- Witness for C3: two calls at different times, with an environment in
which any refresh attempt would fail, both reuse the indefinite token. -/
theorem runCalls_indefinite_witness :
    (⟨.Bearer, some ⟨"tok", .Indefinite, 0⟩, "cmd"⟩ : Auth).runCalls
        [⟨none, 1⟩, ⟨none, 1000⟩] =
      ([.ok (some ⟨"Authorization",
          (⟨.Bearer, some ⟨"tok", .Indefinite, 0⟩, "cmd"⟩ :
            Auth).auth_type.toString ++ " " ++ "tok"⟩),
        .ok (some ⟨"Authorization",
          (⟨.Bearer, some ⟨"tok", .Indefinite, 0⟩, "cmd"⟩ :
            Auth).auth_type.toString ++ " " ++ "tok"⟩)],
       (⟨.Bearer, some ⟨"tok", .Indefinite, 0⟩, "cmd"⟩ : Auth), 0) :=
  runCalls_indefinite _ ⟨"tok", .Indefinite, 0⟩ [⟨none, 1⟩, ⟨none, 1000⟩]
    (by decide) rfl rfl

/-- C7: parsing the captured refresh output succeeds exactly when the text
splits into two whitespace-separated fields whose second field is a valid
`i64`; the token then carries the first field as credential and the
lifespan derived from the integer, while a wrong field count or an
unparsable second field each yield the corresponding failure. -/
theorem refresh_token_parsing (o : String) (now : Nat) :
    (∀ tok : AuthToken,
        Auth.refresh_token ⟨some o, now⟩ = .ok tok ↔
          ((splitWhitespace o).length = 2 ∧
           ∃ n : Int, parseI64 ((splitWhitespace o).getD 1 "") = some n ∧
             tok = { token := (splitWhitespace o).getD 0 "",
                     lifespan := LifeSpan.fromInt n,
                     last_refreshed := now })) ∧
    ((splitWhitespace o).length ≠ 2 →
        Auth.refresh_token ⟨some o, now⟩ = .error .invalidOutput) ∧
    ((splitWhitespace o).length = 2 →
      parseI64 ((splitWhitespace o).getD 1 "") = none →
        Auth.refresh_token ⟨some o, now⟩ = .error .parseIntError) := by
  have hout : Auth.refresh_token ⟨some o, now⟩ =
      (if (splitWhitespace o).length ≠ 2 then .error .invalidOutput
       else
         match parseI64 ((splitWhitespace o).getD 1 "") with
         | none => .error .parseIntError
         | some lifetime =>
           .ok { token := (splitWhitespace o).getD 0 "",
                 lifespan := LifeSpan.fromInt lifetime,
                 last_refreshed := now }) := rfl
  by_cases hlen : (splitWhitespace o).length = 2
  · obtain ⟨x, y, hxy⟩ := List.length_eq_two.mp hlen
    rw [hxy] at hout
    refine ⟨fun tok => ?_, fun h2 => absurd hlen h2, fun _ hparse => ?_⟩
    · rw [hout, hxy]
      cases hp : parseI64 ([x, y].getD 1 "") with
      | none => simp
      | some n => simp [eq_comm]
    · rw [hxy] at hparse
      rw [hout, hparse]
      simp
  · refine ⟨fun tok => ?_, fun _ => ?_, fun h2 _ => absurd h2 hlen⟩
    · rw [hout]
      simp [hlen]
    · rw [hout]
      simp [hlen]

/-- Witness for C7 on the spec example `"abc123 300"`. -/
theorem refresh_token_parsing_witness :
    Auth.refresh_token ⟨some "abc123 300", 7⟩ =
      .ok { token := "abc123", lifespan := .Seconds 300,
            last_refreshed := 7 } :=
  ((refresh_token_parsing "abc123 300" 7).1
      { token := "abc123", lifespan := .Seconds 300,
        last_refreshed := 7 }).mpr
    ⟨by decide, 300, by decide, by decide⟩

/-- C8: whenever an `access_token` call actually triggers a refresh (the
invocation count is at least one) and the refresh fails, the error is
propagated to the caller unchanged and the provider — in particular its
cached token — is exactly what it was before the call. -/
theorem refresh_failure_propagates (a : Auth) (env : Env) (e : AuthError)
    (hfail : Auth.refresh_token env = .error e)
    (htrig : 1 ≤ (a.access_token env).2.2) :
    (a.access_token env).1 = .error e ∧ (a.access_token env).2.1 = a := by
  by_cases hcmd : a.refresh_cmd.isEmpty
  · simp [Auth.access_token, hcmd] at htrig
  · cases htok : a.token with
    | none =>
      simp [Auth.access_token, Auth.get_token, htok, hcmd, hfail]
    | some t =>
      cases hlife : t.lifespan with
      | Indefinite =>
        exfalso
        simp [Auth.access_token, Auth.get_token, htok, hlife, hcmd] at htrig
      | SingleUse =>
        simp [Auth.access_token, Auth.get_token, htok, hlife, hcmd, hfail]
      | Seconds s =>
        by_cases htime : elapsedSecs t.last_refreshed env.now > asU64 s / 2
        · simp [Auth.access_token, Auth.get_token, htok, hlife, hcmd,
            htime, hfail]
        · exfalso
          simp [Auth.access_token, Auth.get_token, htok, hlife, hcmd,
            htime] at htrig

/-- Witness for C8: one-field refresh output `"abc123"` fails the parse,
the error reaches the caller, and the provider is unchanged. -/
theorem refresh_failure_propagates_witness :
    ((Auth.new "cmd" .Bearer).access_token ⟨some "abc123", 5⟩).1 =
      .error .invalidOutput ∧
    ((Auth.new "cmd" .Bearer).access_token ⟨some "abc123", 5⟩).2.1 =
      Auth.new "cmd" .Bearer :=
  refresh_failure_propagates _ _ _ (by decide) (by decide)

/-- C9 counterexample: a provider caching a `SingleUse` token whose
refresh attempt fails is NOT left with an empty cache — the old token is
still cached after the failed call. -/
theorem single_use_failed_refresh_keeps_cache_cex :
    ((⟨.Bearer, some ⟨"tok", .SingleUse, 0⟩, "cmd"⟩ : Auth).access_token
        ⟨none, 5⟩).1 = .error .execError ∧
    ((⟨.Bearer, some ⟨"tok", .SingleUse, 0⟩, "cmd"⟩ : Auth).access_token
        ⟨none, 5⟩).2.1.token = some ⟨"tok", .SingleUse, 0⟩ := by
  decide

/-- C9 amended: when the refresh triggered from a cached `SingleUse` token
fails, the error propagates and the provider keeps the old `SingleUse`
token cached unchanged (it is only replaced by a successful refresh). -/
theorem single_use_failed_refresh_keeps_cache (a : Auth) (env : Env)
    (t : AuthToken) (e : AuthError)
    (hcmd : ¬ a.refresh_cmd.isEmpty) (htok : a.token = some t)
    (hlife : t.lifespan = .SingleUse)
    (hfail : Auth.refresh_token env = .error e) :
    (a.access_token env).1 = .error e ∧
    (a.access_token env).2.1 = a ∧
    (a.access_token env).2.1.token = some t := by
  refine ⟨?_, ?_, ?_⟩ <;>
    simp [Auth.access_token, Auth.get_token, htok, hlife, hcmd, hfail]

/-- Witness for the amended C9 at a concrete `SingleUse` provider whose
refresh command cannot be executed. -/
theorem single_use_failed_refresh_keeps_cache_witness :
    ((⟨.Bearer, some ⟨"tokA", .SingleUse, 2⟩, "c"⟩ : Auth).access_token
        ⟨none, 9⟩).1 = .error .execError ∧
    ((⟨.Bearer, some ⟨"tokA", .SingleUse, 2⟩, "c"⟩ : Auth).access_token
        ⟨none, 9⟩).2.1 = (⟨.Bearer, some ⟨"tokA", .SingleUse, 2⟩, "c"⟩ : Auth) ∧
    ((⟨.Bearer, some ⟨"tokA", .SingleUse, 2⟩, "c"⟩ : Auth).access_token
        ⟨none, 9⟩).2.1.token = some ⟨"tokA", .SingleUse, 2⟩ :=
  single_use_failed_refresh_keeps_cache _ _ ⟨"tokA", .SingleUse, 2⟩ _
    (by decide) rfl rfl (by decide)

/-- After `get_token`, the provider is either unchanged or differs only in
its cached-token field. -/
theorem get_token_state_shape (a : Auth) (env : Env) :
    (a.get_token env).2.1 = a ∨
      ∃ tok, (a.get_token env).2.1 = { a with token := some tok } := by
  cases htok : a.token with
  | none =>
    cases hres : Auth.refresh_token env <;>
      simp [Auth.get_token, htok, hres]
  | some t =>
    cases hlife : t.lifespan with
    | Indefinite => simp [Auth.get_token, htok, hlife]
    | SingleUse =>
      cases hres : Auth.refresh_token env <;>
        simp [Auth.get_token, htok, hlife, hres]
    | Seconds s =>
      by_cases htime : elapsedSecs t.last_refreshed env.now > asU64 s / 2
      · cases hres : Auth.refresh_token env <;>
          simp [Auth.get_token, htok, hlife, htime, hres]
      · simp [Auth.get_token, htok, hlife, htime]

/-- After `access_token`, the provider is either unchanged or differs only
in its cached-token field. -/
theorem access_token_state_shape (a : Auth) (env : Env) :
    (a.access_token env).2.1 = a ∨
      ∃ tok, (a.access_token env).2.1 = { a with token := some tok } := by
  by_cases hcmd : a.refresh_cmd.isEmpty
  · simp [Auth.access_token, hcmd]
  · have h := get_token_state_shape a env
    rcases hget : a.get_token env with ⟨res, st, n⟩
    rw [hget] at h
    cases res <;> simp [Auth.access_token, hcmd, hget] <;> simpa using h

/-- C10: no `access_token` call ever changes the scheme or the refresh
command, and every reusing call (an `Indefinite` token, or a `Seconds`
token still within its half-life) leaves the provider — value, lifespan
and issuance timestamp of the cached token included — exactly as it was. -/
theorem access_token_frame (a : Auth) (env : Env) :
    (a.access_token env).2.1.auth_type = a.auth_type ∧
    (a.access_token env).2.1.refresh_cmd = a.refresh_cmd ∧
    ∀ t : AuthToken, a.token = some t →
      (t.lifespan = .Indefinite ∨
        ∃ n : Int, t.lifespan = .Seconds n ∧
          ¬ elapsedSecs t.last_refreshed env.now > asU64 n / 2) →
      (a.access_token env).2.1 = a := by
  refine ⟨?_, ?_, ?_⟩
  · rcases access_token_state_shape a env with h | ⟨tok, h⟩ <;> simp [h]
  · rcases access_token_state_shape a env with h | ⟨tok, h⟩ <;> simp [h]
  · intro t htok hreuse
    by_cases hcmd : a.refresh_cmd.isEmpty
    · simp [Auth.access_token, hcmd]
    · rcases hreuse with hlife | ⟨n, hlife, htime⟩
      · simp [Auth.access_token, Auth.get_token, htok, hlife, hcmd,
          Auth.set_token_self a t htok]
      · simp [Auth.access_token, Auth.get_token, htok, hlife, hcmd, htime,
          Auth.set_token_self a t htok]

/-- Witness for C10: a reusing call on a `Seconds 10` token at elapsed
time 5 = 10/2 changes nothing about the provider. -/
theorem access_token_frame_witness :
    ((⟨.Bearer, some ⟨"tok", .Seconds 10, 3⟩, "cmd"⟩ : Auth).access_token
        ⟨some "x 1", 8⟩).2.1 =
      (⟨.Bearer, some ⟨"tok", .Seconds 10, 3⟩, "cmd"⟩ : Auth) :=
  (access_token_frame _ _).2.2 ⟨"tok", .Seconds 10, 3⟩ rfl
    (Or.inr ⟨10, rfl, by decide⟩)

end OpenapiFuzzer
